import Mathlib

/-!
Verification of the foodgram backend core against its specification.

The definitions below are a shallow embedding of the Django application:
database tables become lists of rows, queryset operations become list
operations, and serializer / view methods become pure functions returning
either a value or an error message.  Machine integers of the program are
modelled as `Int` (Python integers are unbounded; the database columns in
play stay far below any overflow boundary).
-/

/-- Row of the Ingredient table (recipes/models.py, class Ingredient). -/
structure IngredientRow where
  id : Nat
  name : String
  measurement_unit : String
deriving DecidableEq, Repr

/-- Row of the Recipe table (recipes/models.py, class Recipe); only the
columns the claims touch are kept. -/
structure RecipeRow where
  id : Nat
  author : Nat
  name : String
  short_url : String
deriving DecidableEq, Repr

/-- Row of the IngredientRecipe junction table (recipes/models.py,
class IngredientRecipe). -/
structure IngredientRecipeRow where
  recipe : Nat
  ingredient : Nat
  amount : Int
deriving DecidableEq, Repr

/-- The database state: one list of rows per table.  Follow, Favorite and
ShoppingList rows are (user, other) pairs, recipeTags holds the
Recipe-Tag many-to-many pairs as (recipe id, tag id). -/
structure DB where
  ingredients : List IngredientRow
  recipes : List RecipeRow
  recipeTags : List (Nat × Nat)
  recipeIngredients : List IngredientRecipeRow
  follows : List (Nat × Nat)
  favorites : List (Nat × Nat)
  shoppingList : List (Nat × Nat)
deriving DecidableEq, Repr

/-! ### Python generic numeric rendering

`download_shopping_cart` renders each summed amount with the Python
f-string conversion `f"\x7bamount:g\x7d"`.  For an integer argument the `g`
presentation type converts to float and prints with default precision 6:
the exact decimal digits when the value is below 10^6, otherwise the value
rounded half-to-even to 6 significant digits in scientific form with the
trailing zeros of the mantissa stripped and a sign-and-two-digit exponent.
`formatGNat` embeds that behaviour for a natural number below 2^53 (where
the float conversion is exact); `formatG` extends it to `Int` by sign. -/

/-- Round `n / 10 ^ k` to the nearest integer, ties to even. -/
def roundHalfEven (n k : Nat) : Nat :=
  let p := 10 ^ k
  let q := n / p
  let r := n % p
  if 2 * r > p ∨ (2 * r = p ∧ q % 2 = 1) then q + 1 else q

/-- Python `format(n, "g")` for a natural number (exact below 2^53). -/
def formatGNat (n : Nat) : String :=
  if n < 1000000 then toString n
  else
    let d := (toString n).length
    let q := roundHalfEven n (d - 6)
    let (m, e) := if q = 1000000 then (100000, d) else (q, d - 1)
    match (toString m).data with
    | [] => ""
    | c :: rest =>
      let tl := (rest.reverse.dropWhile (fun ch => ch = '0')).reverse
      String.mk (c :: (if tl.isEmpty then [] else '.' :: tl))
        ++ "e+" ++ (if e < 10 then "0" ++ toString e else toString e)

/-- Python `format(i, "g")` for an integer. -/
def formatG (i : Int) : String :=
  if i < 0 then "-" ++ formatGNat i.natAbs else formatGNat i.natAbs

/-! ### Shopping list download (api/v1/views.py, download_shopping_cart) -/

/-- Ids of the recipes in the cart of `user`: the queryset
`Recipe.objects.filter(in_shopping_lists__user=request.user)`. -/
def cartRecipeIds (db : DB) (user : Nat) : List Nat :=
  (db.shoppingList.filter (fun p => p.1 = user)).map (fun p => p.2)

/-- The junction rows selected by
`IngredientRecipe.objects.filter(recipe__in=recipes)`. -/
def cartIngredientRows (db : DB) (user : Nat) : List IngredientRecipeRow :=
  db.recipeIngredients.filter (fun r => (cartRecipeIds db user).contains r.recipe)

/-- The `.values("ingredient__name", "ingredient__measurement_unit")`
join: each selected junction row paired with the name and unit of its
ingredient (the foreign key join keeps exactly the rows whose ingredient
exists). -/
def joinedRows (db : DB) (user : Nat) : List (String × String × Int) :=
  (cartIngredientRows db user).filterMap (fun r =>
    (db.ingredients.find? (fun i => i.id = r.ingredient)).map
      (fun i => (i.name, i.measurement_unit, r.amount)))

/-- One step of the SQL `GROUP BY` aggregation with `Sum("amount")`:
fold a joined row into the accumulated (key, total) groups. -/
def addRow : List ((String × String) × Int) → String × String × Int →
    List ((String × String) × Int)
  | [], (n, u, a) => [((n, u), a)]
  | (k, t) :: rest, (n, u, a) =>
    if k = (n, u) then (k, t + a) :: rest else (k, t) :: addRow rest (n, u, a)

/-- `GROUP BY (ingredient name, measurement unit)` with summed amounts. -/
def groupSum (rows : List (String × String × Int)) :
    List ((String × String) × Int) :=
  rows.foldl addRow []

/-- Comparison used by `.order_by("ingredient__name")`. -/
def byName (a b : (String × String) × Int) : Prop := a.1.1 ≤ b.1.1

instance : DecidableRel byName :=
  fun a b => inferInstanceAs (Decidable (a.1.1 ≤ b.1.1))

instance : IsTotal ((String × String) × Int) byName :=
  ⟨fun a b => le_total a.1.1 b.1.1⟩

instance : IsTrans ((String × String) × Int) byName :=
  ⟨fun _ _ _ h1 h2 => le_trans h1 h2⟩

/-- The aggregated groups ordered by ingredient name ascending. -/
def shoppingGroups (db : DB) (user : Nat) : List ((String × String) × Int) :=
  List.insertionSort byName (groupSum (joinedRows db user))

/-- One line of the report: `f"\x7bname\x7d (\x7bunit\x7d) — \x7bamount:g\x7d"`. -/
def renderLine (g : (String × String) × Int) : String :=
  g.1.1 ++ " (" ++ g.1.2 ++ ") — " ++ formatG g.2

/-- The text content of the download response:
`"\n".join(lines)` over one rendered line per group. -/
def download_shopping_cart (db : DB) (user : Nat) : String :=
  String.intercalate "\n" ((shoppingGroups db user).map renderLine)

/-! ### Recipe serializer validation (api/v1/serializers.py) -/

/-- Embeds `RecipeSerializer.validate_tags`: nonempty and pairwise
distinct tag ids. -/
def validate_tags (value : List Nat) : Except String (List Nat) :=
  if value.isEmpty then .error "Добавьте хотя бы один тег."
  else if value.dedup.length ≠ value.length then
    .error "Теги должны быть уникальными."
  else .ok value

/-- Embeds `RecipeSerializer.validate_ingredients`: the list is nonempty,
ids are pairwise distinct, every id exists in the Ingredient table
(missing ids are reported together), and each amount passes the
`float(amount) <= 0` test.  There is no upper-bound test here: the
overridden `IngredientRecipeSerializer.to_internal_value` returns the raw
pair and bypasses the declared `IntegerField` validation. -/
def validate_ingredients (tbl : List IngredientRow) (value : List (Nat × Int)) :
    Except String (List (Nat × Int)) :=
  if value.isEmpty then .error "Добавьте хотя бы один ингредиент."
  else if (value.map (fun p => p.1)).dedup.length ≠ (value.map (fun p => p.1)).length then
    .error "Ингредиенты должны быть уникальными."
  else if ¬ ((value.map (fun p => p.1)).filter
      (fun i => ¬ tbl.any (fun row => row.id = i))).isEmpty then
    .error "Ингредиенты не существуют."
  else if value.any (fun p => p.2 ≤ 0) then
    .error "Убедитесь, что это значение больше либо равно 1."
  else .ok value

/-- Embeds `RecipeSerializer._create_ingredients`: for each (id, amount)
pair look the ingredient up with `Ingredient.objects.get` (raising
DoesNotExist when absent) and build the IngredientRecipe object destined
for `bulk_create`.  `bulk_create` performs no validator run. -/
def createIngredientObjs (tbl : List IngredientRow) (rid : Nat) :
    List (Nat × Int) → Except String (List IngredientRecipeRow)
  | [] => .ok []
  | (iid, a) :: rest =>
    match tbl.find? (fun row => row.id = iid) with
    | none => .error "DoesNotExist"
    | some row =>
      match createIngredientObjs tbl rid rest with
      | .error e => .error e
      | .ok objs => .ok (⟨rid, row.id, a⟩ :: objs)

/-- Embeds `RecipeSerializer.create` under `transaction.atomic`: insert
the Recipe row, set the tag pairs, bulk-insert the junction rows; on any
failure the transaction rolls back and the prior state is returned with
the error. -/
def recipe_create (db : DB) (rid author : Nat) (name : String)
    (tags : List Nat) (ings : List (Nat × Int)) : DB × Option String :=
  match createIngredientObjs db.ingredients rid ings with
  | .error e => (db, some e)
  | .ok objs =>
    ({ db with
        recipes := db.recipes ++ [⟨rid, author, name, ""⟩],
        recipeTags := db.recipeTags ++ tags.map (fun t => (rid, t)),
        recipeIngredients := db.recipeIngredients ++ objs }, none)

/-- The non-transactional body of `RecipeSerializer.update`: write the
scalar fields, replace the tag set wholesale with `tags.set`, delete all
junction rows of the recipe with `recipe_ingredients.all().delete()` and
bulk-insert the new ones.  A DoesNotExist inside `_create_ingredients`
aborts midway, leaving the partial state visible to the transaction. -/
def recipe_update_steps (db : DB) (rid : Nat) (name : String)
    (tags : List Nat) (ings : List (Nat × Int)) : DB × Option String :=
  let db1 : DB := { db with
    recipes := db.recipes.map
      (fun r => if r.id = rid then { r with name := name } else r) }
  let db2 : DB := { db1 with
    recipeTags := db1.recipeTags.filter (fun p => p.1 ≠ rid)
      ++ tags.map (fun t => (rid, t)) }
  let db3 : DB := { db2 with
    recipeIngredients := db2.recipeIngredients.filter (fun r => r.recipe ≠ rid) }
  match createIngredientObjs db.ingredients rid ings with
  | .error e => (db3, some e)
  | .ok objs =>
    ({ db3 with recipeIngredients := db3.recipeIngredients ++ objs }, none)

/-- Embeds `RecipeSerializer.update` with its `transaction.atomic`
decorator: on failure of the body the transaction rolls back, so the
caller observes the prior state together with the error. -/
def recipe_update (db : DB) (rid : Nat) (name : String)
    (tags : List Nat) (ings : List (Nat × Int)) : DB × Option String :=
  match recipe_update_steps db rid name tags ings with
  | (_, some e) => (db, some e)
  | (db2, none) => (db2, none)

/-- Error taxonomy at the API boundary: a DRF field-scoped validation
error, a database integrity (constraint) violation escaping as an
unhandled exception, or another unhandled exception. -/
inductive ApiError where
  | validation (msg : String)
  | integrity
  | internal (msg : String)
deriving DecidableEq, Repr

/-- The recipe-creation path of the API: serializer validation
(`validate_tags`, `validate_ingredients`; the serializer performs no
name-per-author check and the auto UniqueTogetherValidator is skipped
because `author` is a read-only field), then the save, during which the
database enforces `unique_together = ("name", "author")` of Recipe.Meta
and rejects a duplicate with an IntegrityError. -/
def recipe_create_api (db : DB) (rid author : Nat) (name : String)
    (tags : List Nat) (ings : List (Nat × Int)) : DB × Option ApiError :=
  match validate_tags tags with
  | .error m => (db, some (.validation m))
  | .ok _ =>
    match validate_ingredients db.ingredients ings with
    | .error m => (db, some (.validation m))
    | .ok _ =>
      if db.recipes.any (fun r => r.author = author ∧ r.name = name) then
        (db, some .integrity)
      else
        match recipe_create db rid author name tags ings with
        | (db2, none) => (db2, none)
        | (_, some m) => (db, some (.internal m))

/-! ### Social graph (api/v1/views.py, ProfileViewSet.subscribe) -/

/-- The POST branch of `subscribe`: reject self-follow, reject an
existing pair, otherwise create the Follow row. -/
def subscribe_post (follows : List (Nat × Nat)) (user author : Nat) :
    List (Nat × Nat) × Option String :=
  if user = author then
    (follows, some "Нельзя подписаться на самого себя")
  else if follows.contains (user, author) then
    (follows, some "Вы уже подписаны на этого пользователя")
  else
    (follows ++ [(user, author)], none)

/-- The DELETE branch of `subscribe`: take the first matching Follow row;
reject when there is none, otherwise delete that row. -/
def subscribe_delete (follows : List (Nat × Nat)) (user author : Nat) :
    List (Nat × Nat) × Option String :=
  if follows.contains (user, author) then
    (follows.erase (user, author), none)
  else
    (follows, some "Вы не подписаны на этого пользователя")

/-! ### Viewer-relative flags (api/v1/serializers.py) -/

/-- Embeds `RecipeSerializer.get_is_favorited`: `false` for an anonymous
viewer, otherwise `Favorite.objects.filter(user=user, recipe=obj).exists()`. -/
def get_is_favorited (db : DB) (viewer : Option Nat) (rid : Nat) : Bool :=
  match viewer with
  | none => false
  | some u => db.favorites.contains (u, rid)

/-- Embeds `RecipeSerializer.get_is_in_shopping_cart` the same way over
the ShoppingList table. -/
def get_is_in_shopping_cart (db : DB) (viewer : Option Nat) (rid : Nat) : Bool :=
  match viewer with
  | none => false
  | some u => db.shoppingList.contains (u, rid)

/-! ### Recipe read view (api/v1/serializers.py, to_representation) -/

/-- The (ingredient id, amount) pairs of the read view: the
`recipe_ingredients` junction rows of the instance serialized by
`IngredientRecipeSerializer`. -/
def recipeViewIngredients (db : DB) (rid : Nat) : List (Nat × Int) :=
  (db.recipeIngredients.filter (fun r => r.recipe = rid)).map
    (fun r => (r.ingredient, r.amount))

/-- The tag ids of the read view, taken from `instance.tags.all()`. -/
def recipeViewTags (db : DB) (rid : Nat) : List Nat :=
  (db.recipeTags.filter (fun p => p.1 = rid)).map (fun p => p.2)

/-! ### Short url generation (recipes/models.py, Recipe.save) -/

/-- Embeds `Recipe.generate_short_url`: walk the stream of candidate
tokens `str(uuid.uuid4())[:SHORT_URL_MAX_LENGTH]` and return the first
one no existing recipe uses (`none` only when the finite candidate list
is exhausted; the loop of the program draws candidates forever). -/
def generate_short_url (existing : List String) : List String → Option String
  | [] => none
  | c :: rest =>
    if existing.contains c then generate_short_url existing rest else some c

/-- Embeds `Recipe.save`: when `short_url` is falsy (the empty string)
generate a fresh token, otherwise keep the stored one. -/
def recipe_save_short_url (existing : List String) (current : String)
    (cands : List String) : Option String :=
  if current = "" then generate_short_url existing cands else some current

/-! ### Username validation (users/validators.py) -/

/-- The forbidden-name data: `FORBIDDEN_NAMES = "me"` — a string, not a
list of strings. -/
def FORBIDDEN_NAMES : String := "me"

/-- Python substring membership `needle in haystack` over char lists. -/
def isSubListOf (needle : List Char) : List Char → Bool
  | [] => needle.isEmpty
  | a :: as => needle.isPrefixOf (a :: as) || isSubListOf needle as

/-- Embeds `forbidden_names_validator`: `value.lower() in FORBIDDEN_NAMES`
is a substring-membership test against the string `"me"`; the result
`true` means the validator raises. -/
def forbidden_names_validator (value : String) : Bool :=
  isSubListOf value.toLower.data FORBIDDEN_NAMES.data

/-! ### Statement-side abbreviations -/

/-- Total amount of the joined rows carrying the (name, unit) key `k`. -/
def keyTotal (rows : List (String × String × Int)) (k : String × String) : Int :=
  ((rows.filter (fun r => (r.1, r.2.1) = k)).map (fun r => r.2.2)).sum

/-- Total amount stored for key `k` in an accumulated group list. -/
def accTotal (acc : List ((String × String) × Int)) (k : String × String) : Int :=
  ((acc.filter (fun g => g.1 = k)).map (fun g => g.2)).sum

/-! ### Concrete database states used by witnesses and counterexamples -/

/-- A state with one favorite and one cart row for user 1, recipe 2. -/
def dbFlags : DB :=
  { ingredients := [], recipes := [], recipeTags := [], recipeIngredients := [],
    follows := [], favorites := [(1, 2)], shoppingList := [(1, 2)] }

/-- A state whose only cart row belongs to user 2. -/
def dbOtherCart : DB :=
  { ingredients := [⟨1, "Flour", "g"⟩], recipes := [⟨5, 2, "Bread", "aaaaaaaa"⟩],
    recipeTags := [], recipeIngredients := [⟨5, 1, 200⟩],
    follows := [], favorites := [], shoppingList := [(2, 5)] }

/-- Two cart recipes of user 1 sharing the flour ingredient. -/
def dbTwoRecipes : DB :=
  { ingredients := [⟨1, "Flour", "g"⟩],
    recipes := [⟨1, 1, "Bread", "aaaaaaaa"⟩, ⟨2, 1, "Cake", "bbbbbbbb"⟩],
    recipeTags := [],
    recipeIngredients := [⟨1, 1, 200⟩, ⟨2, 1, 300⟩],
    follows := [], favorites := [], shoppingList := [(1, 1), (1, 2)] }

/-- Thirty-two cart recipes of user 1, each needing 32000 g of flour:
the summed amount 1024000 crosses the 10^6 rendering boundary. -/
def dbManyRecipes : DB :=
  { ingredients := [⟨1, "Flour", "g"⟩],
    recipes := (List.range 32).map (fun i => ⟨i + 1, 1, toString (i + 1), ""⟩),
    recipeTags := [],
    recipeIngredients := (List.range 32).map (fun i => ⟨i + 1, 1, 32000⟩),
    follows := [], favorites := [],
    shoppingList := (List.range 32).map (fun i => (1, i + 1)) }

/-- An ingredient table with the single ingredient id 1. -/
def tblFlour : List IngredientRow := [⟨1, "Flour", "g"⟩]

/-- A state holding one recipe named Soup by author 1. -/
def dbSoup : DB :=
  { ingredients := tblFlour, recipes := [⟨1, 1, "Soup", "abcdefgh"⟩],
    recipeTags := [], recipeIngredients := [],
    follows := [], favorites := [], shoppingList := [] }

/-- A state with an empty recipe table over the flour ingredient table. -/
def dbEmpty : DB :=
  { ingredients := tblFlour, recipes := [], recipeTags := [],
    recipeIngredients := [], follows := [], favorites := [], shoppingList := [] }

/-- A two-ingredient table and a recipe 1 currently using ingredient 1. -/
def dbUpdate : DB :=
  { ingredients := [⟨1, "Flour", "g"⟩, ⟨2, "Sugar", "g"⟩],
    recipes := [⟨1, 1, "Bread", "aaaaaaaa"⟩],
    recipeTags := [(1, 4)], recipeIngredients := [⟨1, 1, 5⟩],
    follows := [], favorites := [], shoppingList := [] }

/-! ### C7: viewer-relative flags -/

/-- C7: for every recipe and viewer, `is_favorited` is true iff a
Favorite row exists for (viewer, recipe) and `is_in_shopping_cart` is
true iff a ShoppingList row exists for (viewer, recipe); for an anonymous
viewer both flags are false.  The producing functions are pure and total,
so the view mutates nothing and never raises for an anonymous viewer. -/
theorem C7_viewer_flags (db : DB) (viewer : Option Nat) (rid : Nat) :
    (∀ u, viewer = some u →
      ((get_is_favorited db viewer rid = true ↔ (u, rid) ∈ db.favorites)
        ∧ (get_is_in_shopping_cart db viewer rid = true ↔ (u, rid) ∈ db.shoppingList)))
    ∧ (viewer = none →
        get_is_favorited db viewer rid = false
          ∧ get_is_in_shopping_cart db viewer rid = false) := by
  constructor
  · rintro u rfl
    constructor <;> simp [get_is_favorited, get_is_in_shopping_cart]
  · rintro rfl
    exact ⟨rfl, rfl⟩

/-- Witness, instantiating C7 at a concrete state for an authenticated
and for an anonymous viewer. -/
theorem C7_viewer_flags_witness :
    ((get_is_favorited dbFlags (some 1) 2 = true ↔ (1, 2) ∈ dbFlags.favorites)
      ∧ (get_is_in_shopping_cart dbFlags (some 1) 2 = true
          ↔ (1, 2) ∈ dbFlags.shoppingList))
    ∧ (get_is_favorited dbFlags none 2 = false
        ∧ get_is_in_shopping_cart dbFlags none 2 = false) :=
  ⟨(C7_viewer_flags dbFlags (some 1) 2).1 1 rfl,
   (C7_viewer_flags dbFlags none 2).2 rfl⟩

/-! ### C8: empty cart -/

/-- C8: when no ShoppingList row belongs to the user, the download
content is the empty report with zero lines, produced normally. -/
theorem C8_empty_cart (db : DB) (user : Nat)
    (h : ∀ p ∈ db.shoppingList, p.1 ≠ user) :
    download_shopping_cart db user = "" := by
  have h1 : cartRecipeIds db user = [] := by
    unfold cartRecipeIds
    rw [List.filter_eq_nil_iff.mpr (fun p hp => by simpa using h p hp)]
    rfl
  have h2 : cartIngredientRows db user = [] := by
    unfold cartIngredientRows
    rw [h1]
    apply List.filter_eq_nil_iff.mpr
    intro r _
    simp
  unfold download_shopping_cart shoppingGroups joinedRows
  rw [h2]
  rfl

/-- Witness: a user whose cart is empty while another user has a cart
row gets the empty report. -/
theorem C8_empty_cart_witness : download_shopping_cart dbOtherCart 1 = "" :=
  C8_empty_cart dbOtherCart 1 (by decide)

/-! ### C9: short url generation -/

/-- A token returned by the candidate loop is fresh and is a candidate. -/
theorem generate_short_url_mem (existing cands : List String) (t : String)
    (h : generate_short_url existing cands = some t) :
    t ∉ existing ∧ t ∈ cands := by
  induction cands with
  | nil => simp [generate_short_url] at h
  | cons c rest ih =>
    unfold generate_short_url at h
    by_cases hc : existing.contains c
    · rw [if_pos hc] at h
      rcases ih h with ⟨h1, h2⟩
      exact ⟨h1, List.mem_cons_of_mem _ h2⟩
    · rw [if_neg hc] at h
      cases h
      refine ⟨fun hmem => hc ?_, List.mem_cons_self _ _⟩
      simpa using hmem

/-- The candidate loop succeeds as soon as some candidate is fresh. -/
theorem generate_short_url_isSome (existing cands : List String)
    (h : ∃ c ∈ cands, c ∉ existing) :
    (generate_short_url existing cands).isSome = true := by
  induction cands with
  | nil => simp at h
  | cons c rest ih =>
    unfold generate_short_url
    by_cases hc : existing.contains c
    · rw [if_pos hc]
      apply ih
      rcases h with ⟨d, hd, hfresh⟩
      rcases List.mem_cons.mp hd with rfl | hd2
      · exact absurd (by simpa using hc) hfresh
      · exact ⟨d, hd2, hfresh⟩
    · rw [if_neg hc]
      rfl

/-- C9: saving with a nonempty `short_url` keeps it unchanged; saving
with an empty one draws candidate tokens until a collision-free one is
found, and the assigned token is fresh, drawn from the candidate stream
(hence 8 characters long when all candidates are), and exists whenever
the stream holds a fresh candidate. -/
theorem C9_save_short_url (existing : List String) (current : String)
    (cands : List String) :
    (current ≠ "" → recipe_save_short_url existing current cands = some current)
    ∧ (∀ t, recipe_save_short_url existing "" cands = some t →
        t ∉ existing ∧ t ∈ cands)
    ∧ ((∀ c ∈ cands, c.length = 8) → ∀ t,
        recipe_save_short_url existing "" cands = some t → t.length = 8)
    ∧ ((∃ c ∈ cands, c ∉ existing) →
        (recipe_save_short_url existing "" cands).isSome = true) := by
  refine ⟨fun hcur => ?_, fun t ht => ?_, fun hlen t ht => ?_, fun hex => ?_⟩
  · unfold recipe_save_short_url
    rw [if_neg hcur]
  · exact generate_short_url_mem existing cands t ht
  · exact hlen t (generate_short_url_mem existing cands t ht).2
  · exact generate_short_url_isSome existing cands hex

/-- Witness, instantiating C9 on a concrete collision-then-fresh
candidate stream and on an already-set short url. -/
theorem C9_save_short_url_witness :
    recipe_save_short_url ["aaaaaaaa"] "keepthis" ["bbbbbbbb"] = some "keepthis"
    ∧ ((("cccccccc" : String) ∉ (["aaaaaaaa"] : List String))
        ∧ ("cccccccc" : String) ∈ (["aaaaaaaa", "cccccccc"] : List String))
    ∧ ("cccccccc" : String).length = 8 := by
  refine ⟨(C9_save_short_url ["aaaaaaaa"] "keepthis" ["bbbbbbbb"]).1 (by decide),
    (C9_save_short_url ["aaaaaaaa"] "" ["aaaaaaaa", "cccccccc"]).2.1 "cccccccc" (by decide),
    (C9_save_short_url ["aaaaaaaa"] "" ["aaaaaaaa", "cccccccc"]).2.2.1 (by decide)
      "cccccccc" (by decide)⟩

/-! ### C10: forbidden username check -/

/-- Lowercasing the empty string yields the empty string. -/
theorem toLower_empty : "".toLower = "" := by
  unfold String.toLower String.map
  unfold String.mapAux
  split
  next => rfl
  next h => exact absurd rfl h

/-- Counterexample to C10 as stated: the empty username is none of the
case-variants of m, e, me, yet the substring-membership check also
rejects it, so not every other username passes. -/
theorem C10_counterexample :
    forbidden_names_validator "" = true
    ∧ "".toLower ≠ "m" ∧ "".toLower ≠ "e" ∧ "".toLower ≠ "me" := by
  unfold forbidden_names_validator
  rw [toLower_empty]
  refine ⟨rfl, ?_, ?_, ?_⟩ <;> decide

/-- C10 amended: the check rejects exactly the usernames whose
lowercasing is a substring of the string me, namely the empty username
and the usernames m, e and me in any letter case; every other username
passes. -/
theorem C10_forbidden_username (v : String) :
    forbidden_names_validator v = true ↔
      (v.toLower = "" ∨ v.toLower = "m" ∨ v.toLower = "e" ∨ v.toLower = "me") := by
  have key : ∀ l : List Char, isSubListOf l FORBIDDEN_NAMES.data = true ↔
      (l = [] ∨ l = ['m'] ∨ l = ['e'] ∨ l = ['m', 'e']) := by
    intro l
    rcases l with _ | ⟨a, _ | ⟨b, _ | ⟨c, t⟩⟩⟩ <;>
      simp [isSubListOf, List.isPrefixOf, FORBIDDEN_NAMES]
  have h : forbidden_names_validator v = true ↔
      (v.toLower.toList = "".toList ∨ v.toLower.toList = "m".toList ∨
        v.toLower.toList = "e".toList ∨ v.toLower.toList = "me".toList) :=
    key v.toLower.data
  rw [h]
  simp only [String.toList_inj]

/-! ### C6: follow and unfollow -/

/-- C6: Follow fails on self-follow and on an existing pair leaving the
relation unchanged, otherwise creates exactly that row; Unfollow fails
when the pair is absent and otherwise deletes exactly that row, leaving
membership of every other pair unchanged — a two-state machine. -/
theorem C6_follow_unfollow (follows : List (Nat × Nat)) (user author : Nat) :
    (user = author →
      subscribe_post follows user author
        = (follows, some "Нельзя подписаться на самого себя"))
    ∧ (user ≠ author → (user, author) ∈ follows →
        subscribe_post follows user author
          = (follows, some "Вы уже подписаны на этого пользователя"))
    ∧ (user ≠ author → (user, author) ∉ follows →
        subscribe_post follows user author = (follows ++ [(user, author)], none))
    ∧ ((user, author) ∉ follows →
        subscribe_delete follows user author
          = (follows, some "Вы не подписаны на этого пользователя"))
    ∧ ((user, author) ∈ follows → follows.Nodup →
        ((subscribe_delete follows user author).2 = none
          ∧ (user, author) ∉ (subscribe_delete follows user author).1
          ∧ ∀ q, q ≠ (user, author) →
              (q ∈ (subscribe_delete follows user author).1 ↔ q ∈ follows))) := by
  refine ⟨fun hself => ?_, fun hne hmem => ?_, fun hne hnot => ?_,
    fun hnot => ?_, fun hmem hnd => ?_⟩
  · simp [subscribe_post, hself]
  · simp [subscribe_post, hne, hmem]
  · simp [subscribe_post, hne, hnot]
  · simp [subscribe_delete, hnot]
  · have hcd : subscribe_delete follows user author
        = (follows.erase (user, author), none) := by
      simp [subscribe_delete, hmem]
    rw [hcd]
    refine ⟨rfl, ?_, fun q hq => ?_⟩
    · intro habs
      exact absurd ((hnd.mem_erase_iff).mp habs).1 (by simp)
    · exact List.mem_erase_of_ne hq

/-- Witness, instantiating C6: self-follow rejected, duplicate rejected,
fresh follow created, absent unfollow rejected, present unfollow deletes
exactly the row. -/
theorem C6_follow_unfollow_witness :
    subscribe_post [(1, 2)] 3 3 = ([(1, 2)], some "Нельзя подписаться на самого себя")
    ∧ subscribe_post [(1, 2)] 1 2
        = ([(1, 2)], some "Вы уже подписаны на этого пользователя")
    ∧ subscribe_post [(1, 2)] 2 1 = ([(1, 2), (2, 1)], none)
    ∧ subscribe_delete [(1, 2)] 2 1
        = ([(1, 2)], some "Вы не подписаны на этого пользователя")
    ∧ ((subscribe_delete [(1, 2), (2, 1)] 1 2).2 = none
        ∧ (1, 2) ∉ (subscribe_delete [(1, 2), (2, 1)] 1 2).1
        ∧ ∀ q, q ≠ (1, 2) →
            (q ∈ (subscribe_delete [(1, 2), (2, 1)] 1 2).1 ↔ q ∈ [(1, 2), (2, 1)])) :=
  ⟨(C6_follow_unfollow [(1, 2)] 3 3).1 rfl,
   (C6_follow_unfollow [(1, 2)] 1 2).2.1 (by decide) (by decide),
   (C6_follow_unfollow [(1, 2)] 2 1).2.2.1 (by decide) (by decide),
   (C6_follow_unfollow [(1, 2)] 2 1).2.2.2.1 (by decide),
   (C6_follow_unfollow [(1, 2), (2, 1)] 1 2).2.2.2.2 (by decide) (by decide)⟩

/-! ### Junction-row construction lemmas -/

/-- When every referenced ingredient id exists in the table, the
object-building loop succeeds and produces one junction row per input
pair, in order. -/
theorem createIngredientObjs_eq (tbl : List IngredientRow) (rid : Nat)
    (ings : List (Nat × Int)) (h : ∀ p ∈ ings, ∃ row ∈ tbl, row.id = p.1) :
    createIngredientObjs tbl rid ings
      = .ok (ings.map (fun p => ⟨rid, p.1, p.2⟩)) := by
  induction ings with
  | nil => rfl
  | cons p rest ih =>
    obtain ⟨row, hrow, hid⟩ := h p (List.mem_cons_self _ _)
    rcases hfs : tbl.find? (fun row => row.id = p.1) with _ | row2
    · rw [List.find?_eq_none] at hfs
      exact absurd (by simpa using hid) (by simpa using hfs row hrow)
    · have hid2 : row2.id = p.1 := by simpa using List.find?_some hfs
      obtain ⟨iid, a⟩ := p
      simp only [createIngredientObjs, hfs]
      rw [ih (fun q hq => h q (List.mem_cons_of_mem _ hq))]
      simp_all

/-- Whenever the object-building loop succeeds, its output is exactly
the mapped input list. -/
theorem createIngredientObjs_ok_shape (tbl : List IngredientRow) (rid : Nat)
    (ings : List (Nat × Int)) (objs : List IngredientRecipeRow)
    (h : createIngredientObjs tbl rid ings = .ok objs) :
    objs = ings.map (fun p => ⟨rid, p.1, p.2⟩) := by
  induction ings generalizing objs with
  | nil =>
    simp only [createIngredientObjs] at h
    cases h
    rfl
  | cons p rest ih =>
    obtain ⟨iid, a⟩ := p
    simp only [createIngredientObjs] at h
    rcases hfs : tbl.find? (fun row => row.id = iid) with _ | row2
    · rw [hfs] at h
      exact absurd h (by simp)
    · rw [hfs] at h
      have hid2 : row2.id = iid := by simpa using List.find?_some hfs
      rcases hrec : createIngredientObjs tbl rid rest with e | objs2
      · rw [hrec] at h
        exact absurd h (by simp)
      · rw [hrec] at h
        cases h
        rw [ih objs2 hrec]
        simp [hid2]

/-- Passing `validate_ingredients` guarantees that every referenced
ingredient id exists in the table. -/
theorem validate_ingredients_found (tbl : List IngredientRow)
    (ings : List (Nat × Int)) (h : validate_ingredients tbl ings = .ok ings) :
    ∀ p ∈ ings, ∃ row ∈ tbl, row.id = p.1 := by
  intro p hp
  unfold validate_ingredients at h
  by_cases h1 : ings.isEmpty
  · rw [if_pos h1] at h
    exact absurd h (by simp)
  · rw [if_neg h1] at h
    by_cases h2 : (ings.map (fun p => p.1)).dedup.length
        ≠ (ings.map (fun p => p.1)).length
    · rw [if_pos h2] at h
      exact absurd h (by simp)
    · rw [if_neg h2] at h
      by_cases h3 : ¬ ((ings.map (fun p => p.1)).filter
          (fun i => ¬ tbl.any (fun row => row.id = i))).isEmpty
      · rw [if_pos h3] at h
        exact absurd h (by simp)
      · have h4 : ((ings.map (fun p => p.1)).filter
            (fun i => ¬ tbl.any (fun row => row.id = i))).isEmpty = true :=
          not_not.mp h3
        have hempty : (ings.map (fun p => p.1)).filter
            (fun i => ¬ tbl.any (fun row => row.id = i)) = [] := by
          rcases hfe : (ings.map (fun p => p.1)).filter
              (fun i => ¬ tbl.any (fun row => row.id = i)) with _ | ⟨x, xs⟩
          · exact hfe
          · rw [hfe] at h4
            exact absurd h4 (by simp)
        rw [List.filter_eq_nil_iff] at hempty
        have hid : p.1 ∈ ings.map (fun q => q.1) := List.mem_map_of_mem _ hp
        have hh := hempty p.1 hid
        rw [decide_eq_true_eq] at hh
        rw [not_not] at hh
        obtain ⟨row, hrow, hpred⟩ := List.any_eq_true.mp hh
        exact ⟨row, hrow, of_decide_eq_true hpred⟩

/-! ### C2: create then read back -/

/-- C2: for a payload passing tag and ingredient validation, creating
the recipe under a fresh id and reading it back yields a view whose
(ingredient id, amount) pairs coincide with the input list as a set and
whose tag ids coincide with the input tag list as a set. -/
theorem C2_create_read_roundtrip (db : DB) (rid author : Nat) (name : String)
    (tags : List Nat) (ings : List (Nat × Int))
    (hvt : validate_tags tags = .ok tags)
    (hvi : validate_ingredients db.ingredients ings = .ok ings)
    (hfreshI : ∀ r ∈ db.recipeIngredients, r.recipe ≠ rid)
    (hfreshT : ∀ p ∈ db.recipeTags, p.1 ≠ rid) :
    ∃ db2, recipe_create db rid author name tags ings = (db2, none)
      ∧ (∀ p : Nat × Int, p ∈ recipeViewIngredients db2 rid ↔ p ∈ ings)
      ∧ (∀ t : Nat, t ∈ recipeViewTags db2 rid ↔ t ∈ tags) := by
  have hobjs := createIngredientObjs_eq db.ingredients rid ings
    (validate_ingredients_found _ _ hvi)
  have hcreate : recipe_create db rid author name tags ings
      = ({ db with
            recipes := db.recipes ++ [⟨rid, author, name, ""⟩],
            recipeTags := db.recipeTags ++ tags.map (fun t => (rid, t)),
            recipeIngredients := db.recipeIngredients
              ++ ings.map (fun p => ⟨rid, p.1, p.2⟩) }, none) := by
    unfold recipe_create
    rw [hobjs]
  refine ⟨_, hcreate, ?_, ?_⟩
  · intro p
    unfold recipeViewIngredients
    dsimp only
    rw [List.filter_append,
      List.filter_eq_nil_iff.mpr (fun r hr => by simpa using hfreshI r hr),
      List.nil_append,
      List.filter_eq_self.mpr (fun r hr => by
        obtain ⟨q, _, rfl⟩ := List.mem_map.mp hr
        simp)]
    rw [List.map_map]
    simp
  · intro t
    unfold recipeViewTags
    dsimp only
    rw [List.filter_append,
      List.filter_eq_nil_iff.mpr (fun q hq => by simpa using hfreshT q hq),
      List.nil_append,
      List.filter_eq_self.mpr (fun q hq => by
        obtain ⟨u, _, rfl⟩ := List.mem_map.mp hq
        simp)]
    rw [List.map_map]
    simp

/-- Witness, instantiating C2: one ingredient pair and one tag survive
the round trip on a concrete state. -/
theorem C2_create_read_roundtrip_witness :
    ∃ db2, recipe_create dbEmpty 10 1 "Soup" [3] [(1, 5)] = (db2, none)
      ∧ (∀ p : Nat × Int, p ∈ recipeViewIngredients db2 10 ↔ p ∈ [(1, 5)])
      ∧ (∀ t : Nat, t ∈ recipeViewTags db2 10 ↔ t ∈ [3]) :=
  C2_create_read_roundtrip dbEmpty 10 1 "Soup" [3] [(1, 5)]
    rfl rfl (by decide) (by decide)

/-! ### C3: update is an atomic full replace -/

/-- C3: a successful update leaves exactly the junction rows of the new
ingredient list for the recipe (all prior rows deleted, the new set
bulk-inserted, rows of other recipes untouched), replaces the tag set
wholesale, and no ingredient of the old list that is absent from the new
list stays associated; a failed update returns the prior state intact
(the transaction rolls back). -/
theorem C3_update_full_replace (db : DB) (rid : Nat) (name : String)
    (tags : List Nat) (ings : List (Nat × Int)) :
    ((recipe_update db rid name tags ings).2 = none →
      ((recipe_update db rid name tags ings).1.recipeIngredients
          = db.recipeIngredients.filter (fun r => r.recipe ≠ rid)
            ++ ings.map (fun p => ⟨rid, p.1, p.2⟩)
        ∧ (recipe_update db rid name tags ings).1.recipeTags
          = db.recipeTags.filter (fun p => p.1 ≠ rid)
            ++ tags.map (fun t => (rid, t))
        ∧ (∀ iid, iid ∉ ings.map (fun p => p.1) → ∀ a : Int,
            (⟨rid, iid, a⟩ : IngredientRecipeRow)
              ∉ (recipe_update db rid name tags ings).1.recipeIngredients)))
    ∧ (∀ e, (recipe_update db rid name tags ings).2 = some e →
        (recipe_update db rid name tags ings).1 = db) := by
  rcases hobjs : createIngredientObjs db.ingredients rid ings with e | objs
  · have hupd : recipe_update db rid name tags ings = (db, some e) := by
      unfold recipe_update recipe_update_steps
      rw [hobjs]
    rw [hupd]
    exact ⟨fun hc => absurd hc (by simp), fun e2 _ => rfl⟩
  · have hshape := createIngredientObjs_ok_shape db.ingredients rid ings objs hobjs
    have hupd : recipe_update db rid name tags ings
        = ({ db with
              recipes := db.recipes.map
                (fun r => if r.id = rid then { r with name := name } else r),
              recipeTags := db.recipeTags.filter (fun p => p.1 ≠ rid)
                ++ tags.map (fun t => (rid, t)),
              recipeIngredients :=
                (db.recipeIngredients.filter (fun r => r.recipe ≠ rid))
                  ++ ings.map (fun p => ⟨rid, p.1, p.2⟩) }, none) := by
      unfold recipe_update recipe_update_steps
      rw [hobjs, hshape]
    rw [hupd]
    refine ⟨fun _ => ⟨rfl, rfl, fun iid hiid a hmem => ?_⟩,
      fun e2 he2 => absurd he2 (by simp)⟩
    dsimp only at hmem
    rcases List.mem_append.mp hmem with hold | hnew
    · have := List.of_mem_filter hold
      simp at this
    · obtain ⟨q, hq, heq⟩ := List.mem_map.mp hnew
      apply hiid
      have : q.1 = iid := congrArg IngredientRecipeRow.ingredient heq
      exact this ▸ List.mem_map_of_mem _ hq

/-- Witness, instantiating C3 on a concrete state: a successful update
to the sugar ingredient fully replaces the flour row, and an update
referencing a missing ingredient id fails leaving the state intact. -/
theorem C3_update_full_replace_witness :
    ((recipe_update dbUpdate 1 "Bread2" [6] [(2, 7)]).1.recipeIngredients
        = dbUpdate.recipeIngredients.filter (fun r => r.recipe ≠ 1)
          ++ [(2, (7 : Int))].map (fun p => ⟨1, p.1, p.2⟩)
      ∧ (recipe_update dbUpdate 1 "Bread2" [6] [(2, 7)]).1.recipeTags
        = dbUpdate.recipeTags.filter (fun p => p.1 ≠ 1)
          ++ [6].map (fun t => (1, t))
      ∧ (∀ iid, iid ∉ [(2, (7 : Int))].map (fun p => p.1) → ∀ a : Int,
          (⟨1, iid, a⟩ : IngredientRecipeRow)
            ∉ (recipe_update dbUpdate 1 "Bread2" [6] [(2, 7)]).1.recipeIngredients))
    ∧ (recipe_update dbUpdate 1 "Bread2" [6] [(9, 7)]).1 = dbUpdate :=
  ⟨(C3_update_full_replace dbUpdate 1 "Bread2" [6] [(2, 7)]).1 rfl,
   (C3_update_full_replace dbUpdate 1 "Bread2" [6] [(9, 7)]).2 "DoesNotExist" rfl⟩

/-! ### C4: amount bounds -/

/-- C4 evidence: ingredient-list validation rejects the amounts 0 and -5
and accepts 1 and 32000 as the claim states, but it also accepts 32001 —
the only amount check on the serializer path is `float(amount) <= 0`, and
`bulk_create` skips the MaxValueValidator(32000) declared on the model
field, so the out-of-range row is written. -/
theorem C4_amount_bounds_evidence :
    validate_ingredients tblFlour [(1, 0)]
        = .error "Убедитесь, что это значение больше либо равно 1."
    ∧ validate_ingredients tblFlour [(1, -5)]
        = .error "Убедитесь, что это значение больше либо равно 1."
    ∧ validate_ingredients tblFlour [(1, 1)] = .ok [(1, 1)]
    ∧ validate_ingredients tblFlour [(1, 32000)] = .ok [(1, 32000)]
    ∧ validate_ingredients tblFlour [(1, 32001)] = .ok [(1, 32001)]
    ∧ (recipe_create dbEmpty 10 1 "Soup" [3] [(1, 32001)]).1.recipeIngredients
        = [⟨10, 1, 32001⟩] :=
  ⟨rfl, rfl, rfl, rfl, rfl, rfl⟩

/-! ### C5: recipe name unique per author -/

/-- Counterexample to C5 as stated: a second recipe named Soup by author
1 passes the serializer validations untouched and fails only at the
storage layer with an integrity error, not with a field-scoped
validation error. -/
theorem C5_counterexample :
    recipe_create_api dbSoup 2 1 "Soup" [3] [(1, 5)]
      = (dbSoup, some ApiError.integrity) := rfl

/-- C5 amended: for a payload passing serializer validation, creating a
second recipe with a name already used by the same author fails with the
storage-layer uniqueness violation (an integrity error — the serializer
performs no name-collision check, so the failure is not a field-scoped
validation error), while a name unused by that author (for instance the
same name under a different author) is created successfully. -/
theorem C5_duplicate_name (db : DB) (rid author : Nat) (name : String)
    (tags : List Nat) (ings : List (Nat × Int))
    (hvt : validate_tags tags = .ok tags)
    (hvi : validate_ingredients db.ingredients ings = .ok ings) :
    (db.recipes.any (fun r => r.author = author ∧ r.name = name) = true →
      recipe_create_api db rid author name tags ings = (db, some .integrity))
    ∧ (db.recipes.any (fun r => r.author = author ∧ r.name = name) = false →
        ∃ db2, recipe_create_api db rid author name tags ings = (db2, none)) := by
  have hobjs := createIngredientObjs_eq db.ingredients rid ings
    (validate_ingredients_found _ _ hvi)
  constructor
  · intro hdup
    unfold recipe_create_api
    rw [hvt, hvi]
    dsimp only
    rw [if_pos hdup]
  · intro hfree
    unfold recipe_create_api
    rw [hvt, hvi]
    dsimp only
    rw [if_neg (by simp only [hfree]; exact Bool.false_ne_true)]
    unfold recipe_create
    rw [hobjs]
    exact ⟨_, rfl⟩

/-- Witness, instantiating C5: the duplicate Soup by author 1 hits the
integrity error, and Soup by the different author 2 is created. -/
theorem C5_duplicate_name_witness :
    recipe_create_api dbSoup 2 1 "Soup" [3] [(1, 5)]
        = (dbSoup, some ApiError.integrity)
    ∧ ∃ db2, recipe_create_api dbSoup 3 2 "Soup" [3] [(1, 5)] = (db2, none) :=
  ⟨(C5_duplicate_name dbSoup 2 1 "Soup" [3] [(1, 5)] rfl rfl).1 rfl,
   (C5_duplicate_name dbSoup 3 2 "Soup" [3] [(1, 5)] rfl rfl).2 rfl⟩

/-! ### Aggregation lemmas for the shopping list -/

/-- Splitting the accumulated total over the head of the group list. -/
theorem accTotal_cons (k0 : String × String) (t : Int)
    (xs : List ((String × String) × Int)) (k : String × String) :
    accTotal ((k0, t) :: xs) k
      = (if k0 = k then t else 0) + accTotal xs k := by
  unfold accTotal
  rw [List.filter_cons]
  by_cases h : k0 = k
  · rw [if_pos (by simpa using h), if_pos h]
    simp
  · rw [if_neg (by simpa using h), if_neg h]
    simp

/-- Folding one row into the accumulator adds its amount to the total of
its key and leaves every other total unchanged. -/
theorem accTotal_addRow (acc : List ((String × String) × Int))
    (n u : String) (a : Int) (k : String × String) :
    accTotal (addRow acc (n, u, a)) k
      = accTotal acc k + (if (n, u) = k then a else 0) := by
  induction acc with
  | nil =>
    rw [show addRow [] (n, u, a) = [((n, u), a)] from rfl, accTotal_cons]
    rw [show accTotal [] k = 0 from rfl]
    ring
  | cons g rest ih =>
    obtain ⟨k0, t⟩ := g
    by_cases h1 : k0 = (n, u)
    · rw [show addRow ((k0, t) :: rest) (n, u, a) = (k0, t + a) :: rest from by
        simp [addRow, h1]]
      rw [accTotal_cons, accTotal_cons]
      by_cases hk : k0 = k
      · rw [if_pos hk, if_pos hk, if_pos (h1.symm.trans hk)]
        ring
      · rw [if_neg hk, if_neg hk, if_neg (fun h => hk (h1.trans h))]
        ring
    · rw [show addRow ((k0, t) :: rest) (n, u, a)
          = (k0, t) :: addRow rest (n, u, a) from by simp [addRow, h1]]
      rw [accTotal_cons, accTotal_cons, ih]
      ring

/-- A key is present after a fold step iff it was present before or is
the key of the folded row. -/
theorem keys_addRow (acc : List ((String × String) × Int))
    (n u : String) (a : Int) (k : String × String) :
    k ∈ (addRow acc (n, u, a)).map (fun g => g.1) ↔
      k ∈ acc.map (fun g => g.1) ∨ k = (n, u) := by
  induction acc with
  | nil =>
    rw [show addRow [] (n, u, a) = [((n, u), a)] from rfl]
    simp
  | cons g rest ih =>
    obtain ⟨k0, t⟩ := g
    by_cases h1 : k0 = (n, u)
    · rw [show addRow ((k0, t) :: rest) (n, u, a) = (k0, t + a) :: rest from by
        simp [addRow, h1]]
      simp only [List.map_cons, List.mem_cons]
      subst h1
      tauto
    · rw [show addRow ((k0, t) :: rest) (n, u, a)
          = (k0, t) :: addRow rest (n, u, a) from by simp [addRow, h1]]
      simp only [List.map_cons, List.mem_cons, ih]
      tauto

/-- The fold step keeps the keys pairwise distinct. -/
theorem keysNodup_addRow (acc : List ((String × String) × Int))
    (n u : String) (a : Int)
    (h : (acc.map (fun g => g.1)).Nodup) :
    ((addRow acc (n, u, a)).map (fun g => g.1)).Nodup := by
  induction acc with
  | nil =>
    rw [show addRow [] (n, u, a) = [((n, u), a)] from rfl]
    simp
  | cons g rest ih =>
    obtain ⟨k0, t⟩ := g
    rw [List.map_cons, List.nodup_cons] at h
    by_cases h1 : k0 = (n, u)
    · rw [show addRow ((k0, t) :: rest) (n, u, a) = (k0, t + a) :: rest from by
        simp [addRow, h1]]
      rw [List.map_cons, List.nodup_cons]
      exact h
    · rw [show addRow ((k0, t) :: rest) (n, u, a)
          = (k0, t) :: addRow rest (n, u, a) from by simp [addRow, h1]]
      rw [List.map_cons, List.nodup_cons]
      refine ⟨fun hc => ?_, ih h.2⟩
      rcases (keys_addRow rest n u a k0).mp hc with hmem | heq
      · exact h.1 hmem
      · exact h1 heq

/-- Splitting the per-key total over the head of the row list. -/
theorem keyTotal_cons (n u : String) (a : Int)
    (rest : List (String × String × Int)) (k : String × String) :
    keyTotal ((n, u, a) :: rest) k
      = (if (n, u) = k then a else 0) + keyTotal rest k := by
  unfold keyTotal
  rw [List.filter_cons]
  by_cases h : (n, u) = k
  · rw [if_pos (by simpa using h), if_pos h]
    simp
  · rw [if_neg (by simpa using h), if_neg h]
    simp

/-- The fold of all rows accumulates exactly the per-key totals. -/
theorem accTotal_foldl (rows : List (String × String × Int))
    (acc : List ((String × String) × Int)) (k : String × String) :
    accTotal (rows.foldl addRow acc) k = accTotal acc k + keyTotal rows k := by
  induction rows generalizing acc with
  | nil => simp [keyTotal, accTotal]
  | cons row rest ih =>
    obtain ⟨n, u, a⟩ := row
    rw [List.foldl_cons, ih (addRow acc (n, u, a)), accTotal_addRow, keyTotal_cons]
    ring

/-- A key appears among the folded groups iff some row carries it. -/
theorem keys_foldl (rows : List (String × String × Int))
    (acc : List ((String × String) × Int)) (k : String × String) :
    k ∈ ((rows.foldl addRow acc).map (fun g => g.1)) ↔
      k ∈ acc.map (fun g => g.1) ∨ k ∈ rows.map (fun r => (r.1, r.2.1)) := by
  induction rows generalizing acc with
  | nil => simp
  | cons row rest ih =>
    obtain ⟨n, u, a⟩ := row
    rw [List.foldl_cons, ih (addRow acc (n, u, a)), keys_addRow]
    simp only [List.map_cons, List.mem_cons]
    tauto

/-- The folded groups have pairwise distinct keys. -/
theorem keysNodup_foldl (rows : List (String × String × Int))
    (acc : List ((String × String) × Int))
    (h : (acc.map (fun g => g.1)).Nodup) :
    (((rows.foldl addRow acc)).map (fun g => g.1)).Nodup := by
  induction rows generalizing acc with
  | nil => exact h
  | cons row rest ih =>
    obtain ⟨n, u, a⟩ := row
    rw [List.foldl_cons]
    exact ih (addRow acc (n, u, a)) (keysNodup_addRow acc n u a h)

/-- In an accumulator with distinct keys, the stored value of a present
pair is the accumulated total of its key. -/
theorem mem_accTotal (acc : List ((String × String) × Int))
    (k : String × String) (t : Int) (hmem : (k, t) ∈ acc)
    (hnd : (acc.map (fun g => g.1)).Nodup) :
    t = accTotal acc k := by
  induction acc with
  | nil => cases hmem
  | cons g rest ih =>
    obtain ⟨k0, t0⟩ := g
    rw [List.map_cons, List.nodup_cons] at hnd
    rcases List.mem_cons.mp hmem with heq | hrest
    · injection heq with hk ht
      subst hk
      subst ht
      have hz : accTotal rest k = 0 := by
        unfold accTotal
        rw [List.filter_eq_nil_iff.mpr (fun g hg hp => hnd.1 (by
          have hgk : g.1 = k := of_decide_eq_true hp
          have hmm : g.1 ∈ rest.map (fun q => q.1) := List.mem_map_of_mem _ hg
          rwa [hgk] at hmm))]
        rfl
      rw [accTotal_cons, if_pos rfl, hz]
      ring
    · have hk0 : k0 ≠ k := by
        intro h
        exact hnd.1 (h ▸ (List.mem_map_of_mem (fun g => g.1) hrest))
      rw [accTotal_cons, if_neg hk0, ih hrest hnd.2]
      ring

/-- The value stored for a key in the aggregation is the sum of the
amounts of the joined rows carrying that key. -/
theorem groupSum_total (rows : List (String × String × Int))
    (k : String × String) (t : Int) (h : (k, t) ∈ groupSum rows) :
    t = keyTotal rows k := by
  have hnd := keysNodup_foldl rows [] (by simp)
  have ht := mem_accTotal _ k t h hnd
  rw [ht]
  have := accTotal_foldl rows [] k
  simpa [accTotal] using this

/-- Rendering never loses precision below one million: there the generic
float formatting prints the exact decimal integer. -/
theorem formatG_eq_toString (i : Int) (h0 : 0 ≤ i) (h1 : i < 1000000) :
    formatG i = toString i := by
  unfold formatG
  rw [if_neg (not_lt.mpr h0)]
  have hn : i.natAbs < 1000000 := by omega
  unfold formatGNat
  rw [if_pos hn]
  obtain ⟨n, rfl⟩ := Int.eq_ofNat_of_zero_le h0
  rfl

/-! ### C1: shopping list aggregation -/

/-- Counterexample to C1 as stated: with 32 cart recipes each holding
32000 g of flour the summed amount is 1024000, which the `g` conversion
prints in rounded scientific form, not as its exact decimal integer
value. -/
theorem C1_counterexample :
    download_shopping_cart dbManyRecipes 1 = "Flour (g) — 1.024e+06"
    ∧ download_shopping_cart dbManyRecipes 1 ≠ "Flour (g) — 1024000" := by
  constructor
  · decide
  · decide

/-- C1 amended: the download collects the junction rows of exactly the
recipes in the cart of the user, groups them by the (name, unit) pair of
the ingredient, sums the amounts within each group (one group per
distinct pair), sorts the groups by ingredient name ascending, renders
each group as name, unit in parentheses, an em dash and the summed
amount in the Python `g` conversion — which is the exact decimal integer
value whenever the sum is below one million — and joins the lines with
newline. -/
theorem C1_download_aggregation (db : DB) (user : Nat) :
    download_shopping_cart db user
        = String.intercalate "\n" ((shoppingGroups db user).map renderLine)
    ∧ List.Pairwise byName (shoppingGroups db user)
    ∧ ((shoppingGroups db user).map (fun g => g.1)).Nodup
    ∧ (∀ k : String × String,
        k ∈ (shoppingGroups db user).map (fun g => g.1)
          ↔ k ∈ (joinedRows db user).map (fun r => (r.1, r.2.1)))
    ∧ (∀ k t, (k, t) ∈ shoppingGroups db user → t = keyTotal (joinedRows db user) k)
    ∧ (∀ g : (String × String) × Int,
        renderLine g = g.1.1 ++ " (" ++ g.1.2 ++ ") — " ++ formatG g.2)
    ∧ (∀ i : Int, 0 ≤ i → i < 1000000 → formatG i = toString i) := by
  have hperm : List.Perm (shoppingGroups db user) (groupSum (joinedRows db user)) :=
    List.perm_insertionSort byName _
  have hnd : ((groupSum (joinedRows db user)).map (fun g => g.1)).Nodup :=
    keysNodup_foldl (joinedRows db user) [] (by simp)
  refine ⟨rfl, ?_, ?_, ?_, ?_, fun g => rfl, formatG_eq_toString⟩
  · exact List.sorted_insertionSort byName _
  · exact ((hperm.map (fun g => g.1)).nodup_iff).mpr hnd
  · intro k
    rw [(hperm.map (fun g => g.1)).mem_iff]
    have := keys_foldl (joinedRows db user) [] k
    simpa [groupSum] using this
  · intro k t hmem
    exact groupSum_total (joinedRows db user) k t (hperm.mem_iff.mp hmem)

/-- Witness, instantiating C1 on the two-recipe state: the flour group
totals 500 and amounts below one million print as decimal integers. -/
theorem C1_download_aggregation_witness :
    ((500 : Int) = keyTotal (joinedRows dbTwoRecipes 1) ("Flour", "g"))
    ∧ formatG 500 = toString (500 : Int) := by
  have h := C1_download_aggregation dbTwoRecipes 1
  exact ⟨h.2.2.2.2.1 ("Flour", "g") 500 (by decide),
    h.2.2.2.2.2.2 500 (by decide) (by decide)⟩

